import Mathlib

/-!
Shallow embedding of the valuation core of `stock_dashboard_app.py`
(class `StockValuationDashboard` and the recommendation logic of `main`).

Python floats are modelled as rationals; a Python `dict.get(k)` on a
possibly-missing key is modelled with `Option`; a Python division that can
raise `ZeroDivisionError` (caught by the enclosing `try`/`except`, which
returns `None`) is modelled with `pydiv : ℚ → ℚ → Option ℚ`; the random
number generator (`random.uniform` / `np.random.uniform`) is modelled as an
explicit stream `g : ℕ → ℚ` of draws in `[0, 1)`, with
`uniform a b r = a + (b - a) * r`.
-/

namespace StockDashboard

/-- The provider `info` mapping, restricted to the keys the engine reads.
A key absent from the Python dict is `none`. -/
structure Info where
  currentPrice : Option ℚ := none
  marketCap : Option ℚ := none
  trailingPE : Option ℚ := none
  forwardPE : Option ℚ := none
  priceToSalesTrailing12Months : Option ℚ := none
  priceToBook : Option ℚ := none
  trailingEps : Option ℚ := none
  forwardEps : Option ℚ := none
  profitMargins : Option ℚ := none
  beta : Option ℚ := none
  dividendYield : Option ℚ := none
  freeCashflow : Option ℚ := none
  totalRevenue : Option ℚ := none
  longName : Option String := none
deriving DecidableEq

/-- The keyword arguments of `calculate_dcf_valuation`. -/
structure DCFAssumptions where
  growth_rate : ℚ
  discount_rate : ℚ
  terminal_growth : ℚ
  forecast_years : ℕ
deriving DecidableEq

/-- The `dcf_result` dict built at the end of `calculate_dcf_valuation`. -/
structure DCFResult where
  intrinsic_value : ℚ
  current_price : ℚ
  margin_of_safety : ℚ
  free_cash_flow : ℚ
  enterprise_value : ℚ
  equity_value : ℚ
  future_fcfs : List ℚ
  terminal_value : ℚ
  present_value_fcfs : ℚ
  present_value_terminal : ℚ
  assumptions : DCFAssumptions
deriving DecidableEq

/-- The three recommendation banners rendered in `main`. -/
inductive Recommendation where
  | buy
  | hold
  | sell
deriving DecidableEq

/-- A value of the `self.stock_data` dict: the ticker string, the `info`
dict, the price history (list of (day, close) pairs, days as integers), or a
pandas DataFrame whose contents no claim depends on. -/
inductive StockVal where
  | s : String → StockVal
  | i : Info → StockVal
  | h : List (ℤ × ℚ) → StockVal
  | frame : StockVal
deriving DecidableEq

/-- Model of `random.uniform(a, b)` / `np.random.uniform(a, b)` given a raw draw
`r ∈ [0, 1)` from the underlying generator. -/
def uniform (a b r : ℚ) : ℚ := a + (b - a) * r

/-- Python float division: raises `ZeroDivisionError` on a zero divisor,
which the enclosing `try` turns into a `None` result. -/
def pydiv (x y : ℚ) : Option ℚ := if y = 0 then none else some (x / y)

/-- Lines 203-208 of `calculate_dcf_valuation`:
`free_cash_flow = info.get('freeCashflow', 0)`; if `free_cash_flow <= 0`
then `free_cash_flow = info.get('totalRevenue', 1e10) * 0.2`. -/
def free_cash_flow_base (info : Info) : ℚ :=
  let free_cash_flow := info.freeCashflow.getD 0
  if free_cash_flow ≤ 0 then info.totalRevenue.getD 1e10 * 0.2
  else free_cash_flow

/-- Model of `sum([fcf / (1 + discount_rate) ** (i + 1) for i, fcf in
enumerate(future_fcfs)])`, starting the enumeration at index `i`; each
division can raise. -/
def sum_pv (discount_rate : ℚ) : ℕ → List ℚ → Option ℚ
  | _, [] => some 0
  | i, fcf :: rest =>
    match pydiv fcf ((1 + discount_rate) ^ (i + 1)), sum_pv discount_rate (i + 1) rest with
    | some v, some s => some (v + s)
    | _, _ => none

/-- Embedding of `calculate_dcf_valuation` (lines 197-267).  The whole body runs inside
`try`/`except`, which returns `None` on any raised exception; the possible
exceptions are the `ZeroDivisionError`s of the four divisions and the
`IndexError` of `future_fcfs[-1]` on an empty projection list. -/
def calculate_dcf_valuation (info : Info) (a : DCFAssumptions) : Option DCFResult := do
  let free_cash_flow := free_cash_flow_base info
  let future_fcfs := (List.range a.forecast_years).map
    (fun year => free_cash_flow * (1 + a.growth_rate) ^ (year + 1))
  let lastFcf ← future_fcfs.getLast?
  let terminal_value ← pydiv (lastFcf * (1 + a.terminal_growth))
    (a.discount_rate - a.terminal_growth)
  let present_value_fcfs ← sum_pv a.discount_rate 0 future_fcfs
  let present_value_terminal ← pydiv terminal_value ((1 + a.discount_rate) ^ a.forecast_years)
  let enterprise_value := present_value_fcfs + present_value_terminal
  let equity_value := enterprise_value
  let shares_outstanding ← pydiv (info.marketCap.getD 1) (info.currentPrice.getD 1)
  let intrinsic_value_per_share ← pydiv equity_value shares_outstanding
  let current_price := info.currentPrice.getD 0
  let margin_of_safety :=
    if 0 < intrinsic_value_per_share then
      (intrinsic_value_per_share - current_price) / intrinsic_value_per_share * 100
    else 0
  some { intrinsic_value := intrinsic_value_per_share
         current_price := current_price
         margin_of_safety := margin_of_safety
         free_cash_flow := free_cash_flow
         enterprise_value := enterprise_value
         equity_value := equity_value
         future_fcfs := future_fcfs
         terminal_value := terminal_value
         present_value_fcfs := present_value_fcfs
         present_value_terminal := present_value_terminal
         assumptions := a }

/-- Embedding of `calculate_valuation_ratios` (lines 168-195), with the draw of
`np.random.uniform(0.05, 0.15)` taken from the raw generator value `r`.
The dict is modelled as the association list built in insertion order. -/
def calculate_valuation_ratios (info : Info) (r : ℚ) : List (String × Option ℚ) :=
  [("pe_ratio", info.trailingPE),
   ("forward_pe", info.forwardPE),
   ("price_to_sales", info.priceToSalesTrailing12Months),
   ("price_to_book", info.priceToBook),
   ("eps", info.trailingEps),
   ("forward_eps", info.forwardEps),
   ("profit_margin", info.profitMargins),
   ("revenue_growth", some (uniform 0.05 0.15 r)),
   ("market_cap", info.marketCap),
   ("beta", info.beta),
   ("current_price", info.currentPrice),
   ("dividend_yield", info.dividendYield)]

/-- The recommendation block of `main` (lines 419-426):
`if margin_of_safety > 10: BUY elif margin_of_safety > -10: HOLD else: SELL`. -/
def recommendation (margin_of_safety : ℚ) : Recommendation :=
  if margin_of_safety > 10 then Recommendation.buy
  else if margin_of_safety > -10 then Recommendation.hold
  else Recommendation.sell

/-- Model of `pd.date_range(start=start_date, end=end_date)` with daily frequency: one entry per
calendar day from `start_date` to `end_date`, both endpoints included
(pandas date_range is inclusive of both bounds); empty when the range is
reversed.  Calendar days are modelled as integers. -/
def date_range (start_date end_date : ℤ) : List ℤ :=
  if start_date ≤ end_date then
    (List.range ((end_date - start_date).toNat + 1)).map (fun k : ℕ => start_date + (k : ℤ))
  else []

/-- The price loop of `_generate_demo_data` (lines 130-133): for each date,
draw `volatility = random.uniform(-0.02, 0.02)` (the draw at stream index
`i`), multiply the running `base_price` by `(1 + volatility)`, and append
`(date, base_price)`.  Returns the price rows together with the final value
of `base_price`. -/
def demo_walk (g : ℕ → ℚ) : List ℤ → ℕ → ℚ → List (ℤ × ℚ) × ℚ
  | [], _, price => ([], price)
  | d :: ds, i, price =>
    let price' := price * (1 + uniform (-0.02) 0.02 (g i))
    let rest := demo_walk g ds (i + 1) price'
    ((d, price') :: rest.1, rest.2)

/-- Embedding of `_generate_demo_data` (lines 120-166).  The draws are consumed in source
order: index 0 is `base_price = random.uniform(100, 200)`, indices
`1 .. len(dates)` are the per-day volatilities, and the remaining draws fill
the simulated `info` dict in the order its entries are written.  Returns the
`self.stock_data` dict as an association list in insertion order. -/
def generate_demo_data (ticker : String) (start_date end_date : ℤ) (g : ℕ → ℚ) :
    List (String × StockVal) :=
  let dates := date_range start_date end_date
  let base_price := uniform 100 200 (g 0)
  let wd := demo_walk g dates 1 base_price
  let j := 1 + dates.length
  let info : Info :=
    { currentPrice := some wd.2
      marketCap := some (uniform 1e11 2e12 (g j))
      trailingPE := some (uniform 15 25 (g (j + 1)))
      forwardPE := some (uniform 16 22 (g (j + 2)))
      priceToBook := some (uniform 3 6 (g (j + 3)))
      trailingEps := some (uniform 5 12 (g (j + 4)))
      forwardEps := some (uniform 6 13 (g (j + 5)))
      beta := some (uniform 0.9 1.3 (g (j + 6)))
      longName := some (ticker ++ " Corporation")
      freeCashflow := some (uniform 5e9 2e10 (g (j + 7)))
      totalRevenue := some (uniform 8e10 3e11 (g (j + 8)))
      profitMargins := some (uniform 0.15 0.25 (g (j + 9)))
      dividendYield := some (uniform 0.01 0.03 (g (j + 10)))
      priceToSalesTrailing12Months := none }
  [("ticker", StockVal.s ticker),
   ("info", StockVal.i info),
   ("history", StockVal.h wd.1),
   ("financials", StockVal.frame),
   ("balance_sheet", StockVal.frame),
   ("cashflow", StockVal.frame)]

/-- The live data a successful `yf.Ticker` fetch yields (the DataFrames the
claims never inspect are collapsed to `StockVal.frame`). -/
structure LiveData where
  info : Info
  history : List (ℤ × ℚ)

/-- Embedding of `get_stock_data` (lines 88-118): on a successful fetch, store the live
data and return `True`; on any exception, show an error and fall back to
`_generate_demo_data`, which itself returns `True`.  The fetch outcome is an
explicit input (`none` models the provider raising). -/
def get_stock_data (fetch : Option LiveData) (ticker : String)
    (start_date end_date : ℤ) (g : ℕ → ℚ) : Bool × List (String × StockVal) :=
  match fetch with
  | some d =>
    (true,
     [("ticker", StockVal.s ticker),
      ("info", StockVal.i d.info),
      ("history", StockVal.h d.history),
      ("financials", StockVal.frame),
      ("balance_sheet", StockVal.frame),
      ("cashflow", StockVal.frame)])
  | none => (true, generate_demo_data ticker start_date end_date g)

/-- Accessor for `self.stock_data['info']`. -/
def sd_info (sd : List (String × StockVal)) : Info :=
  match sd.lookup ("info") with
  | some (StockVal.i info) => info
  | _ => {}

/-- Accessor for `self.stock_data['history']`. -/
def sd_history (sd : List (String × StockVal)) : List (ℤ × ℚ) :=
  match sd.lookup ("history") with
  | some (StockVal.h l) => l
  | _ => []

/-- The analysis step of `main` (lines 377-385): compute the valuation
ratios (which consume one random draw) and the DCF valuation from the same
snapshot.  The random stream is an explicit input; `calculate_dcf_valuation`
does not read it. -/
def analyze (info : Info) (a : DCFAssumptions) (g : ℕ → ℚ) :
    List (String × Option ℚ) × Option DCFResult :=
  (calculate_valuation_ratios info (g 0), calculate_dcf_valuation info a)

/-! ### Helper lemmas -/

lemma pydiv_of_ne (x : ℚ) {y : ℚ} (h : y ≠ 0) : pydiv x y = some (x / y) := by
  simp [pydiv, h]

lemma pydiv_zero (x : ℚ) : pydiv x 0 = none := by
  simp [pydiv]

lemma getLast?_range_map (f : ℕ → ℚ) {n : ℕ} (h : n ≠ 0) :
    ((List.range n).map f).getLast? = some (f (n - 1)) := by
  obtain ⟨m, rfl⟩ := Nat.exists_eq_succ_of_ne_zero h
  rw [List.range_succ, List.map_append]
  simp

lemma sum_pv_range' (dr : ℚ) (h : 1 + dr ≠ 0) (f : ℕ → ℚ) :
    ∀ (n i : ℕ), sum_pv dr i ((List.range' i n).map f) =
      some (((List.range' i n).map (fun k => f k / (1 + dr) ^ (k + 1))).sum) := by
  intro n
  induction n with
  | zero => intro i; simp [sum_pv]
  | succ m ih =>
    intro i
    rw [List.range'_succ, List.map_cons, List.map_cons]
    have hp : (1 + dr) ^ (i + 1) ≠ 0 := pow_ne_zero _ h
    simp [sum_pv, pydiv_of_ne _ hp, ih (i + 1)]

lemma sum_pv_range (dr : ℚ) (h : 1 + dr ≠ 0) (f : ℕ → ℚ) (n : ℕ) :
    sum_pv dr 0 ((List.range n).map f) =
      some (((List.range n).map (fun k => f k / (1 + dr) ^ (k + 1))).sum) := by
  rw [List.range_eq_range' n]
  exact sum_pv_range' dr h f n 0

/-- Symbolic evaluation of `calculate_dcf_valuation` when no division by
zero occurs: all intermediate values in closed form. -/
lemma dcf_run (info : Info) (a : DCFAssumptions)
    (h1 : a.forecast_years ≠ 0)
    (h2 : a.discount_rate - a.terminal_growth ≠ 0)
    (h3 : 1 + a.discount_rate ≠ 0)
    (h4 : info.currentPrice.getD 1 ≠ 0)
    (h5 : info.marketCap.getD 1 ≠ 0) :
    calculate_dcf_valuation info a =
      some { intrinsic_value :=
               (((List.range a.forecast_years).map
                   (fun k => free_cash_flow_base info * (1 + a.growth_rate) ^ (k + 1) /
                     (1 + a.discount_rate) ^ (k + 1))).sum +
                 free_cash_flow_base info * (1 + a.growth_rate) ^ a.forecast_years *
                   (1 + a.terminal_growth) / (a.discount_rate - a.terminal_growth) /
                   (1 + a.discount_rate) ^ a.forecast_years) /
                 (info.marketCap.getD 1 / info.currentPrice.getD 1)
             current_price := info.currentPrice.getD 0
             margin_of_safety :=
               if 0 < (((List.range a.forecast_years).map
                   (fun k => free_cash_flow_base info * (1 + a.growth_rate) ^ (k + 1) /
                     (1 + a.discount_rate) ^ (k + 1))).sum +
                 free_cash_flow_base info * (1 + a.growth_rate) ^ a.forecast_years *
                   (1 + a.terminal_growth) / (a.discount_rate - a.terminal_growth) /
                   (1 + a.discount_rate) ^ a.forecast_years) /
                 (info.marketCap.getD 1 / info.currentPrice.getD 1) then
                 ((((List.range a.forecast_years).map
                   (fun k => free_cash_flow_base info * (1 + a.growth_rate) ^ (k + 1) /
                     (1 + a.discount_rate) ^ (k + 1))).sum +
                 free_cash_flow_base info * (1 + a.growth_rate) ^ a.forecast_years *
                   (1 + a.terminal_growth) / (a.discount_rate - a.terminal_growth) /
                   (1 + a.discount_rate) ^ a.forecast_years) /
                 (info.marketCap.getD 1 / info.currentPrice.getD 1) -
                   info.currentPrice.getD 0) /
                 ((((List.range a.forecast_years).map
                   (fun k => free_cash_flow_base info * (1 + a.growth_rate) ^ (k + 1) /
                     (1 + a.discount_rate) ^ (k + 1))).sum +
                 free_cash_flow_base info * (1 + a.growth_rate) ^ a.forecast_years *
                   (1 + a.terminal_growth) / (a.discount_rate - a.terminal_growth) /
                   (1 + a.discount_rate) ^ a.forecast_years) /
                 (info.marketCap.getD 1 / info.currentPrice.getD 1)) * 100
               else 0
             free_cash_flow := free_cash_flow_base info
             enterprise_value :=
               ((List.range a.forecast_years).map
                   (fun k => free_cash_flow_base info * (1 + a.growth_rate) ^ (k + 1) /
                     (1 + a.discount_rate) ^ (k + 1))).sum +
                 free_cash_flow_base info * (1 + a.growth_rate) ^ a.forecast_years *
                   (1 + a.terminal_growth) / (a.discount_rate - a.terminal_growth) /
                   (1 + a.discount_rate) ^ a.forecast_years
             equity_value :=
               ((List.range a.forecast_years).map
                   (fun k => free_cash_flow_base info * (1 + a.growth_rate) ^ (k + 1) /
                     (1 + a.discount_rate) ^ (k + 1))).sum +
                 free_cash_flow_base info * (1 + a.growth_rate) ^ a.forecast_years *
                   (1 + a.terminal_growth) / (a.discount_rate - a.terminal_growth) /
                   (1 + a.discount_rate) ^ a.forecast_years
             future_fcfs := (List.range a.forecast_years).map
               (fun year => free_cash_flow_base info * (1 + a.growth_rate) ^ (year + 1))
             terminal_value :=
               free_cash_flow_base info * (1 + a.growth_rate) ^ a.forecast_years *
                 (1 + a.terminal_growth) / (a.discount_rate - a.terminal_growth)
             present_value_fcfs :=
               ((List.range a.forecast_years).map
                 (fun k => free_cash_flow_base info * (1 + a.growth_rate) ^ (k + 1) /
                   (1 + a.discount_rate) ^ (k + 1))).sum
             present_value_terminal :=
               free_cash_flow_base info * (1 + a.growth_rate) ^ a.forecast_years *
                 (1 + a.terminal_growth) / (a.discount_rate - a.terminal_growth) /
                 (1 + a.discount_rate) ^ a.forecast_years
             assumptions := a } := by
  have hlast : ((List.range a.forecast_years).map
      (fun year => free_cash_flow_base info * (1 + a.growth_rate) ^ (year + 1))).getLast? =
      some (free_cash_flow_base info * (1 + a.growth_rate) ^ (a.forecast_years - 1 + 1)) :=
    getLast?_range_map _ h1
  rw [Nat.sub_add_cancel (Nat.one_le_iff_ne_zero.mpr h1)] at hlast
  have hpow : (1 + a.discount_rate) ^ a.forecast_years ≠ 0 := pow_ne_zero _ h3
  have hsh : info.marketCap.getD 1 / info.currentPrice.getD 1 ≠ 0 := div_ne_zero h5 h4
  simp only [calculate_dcf_valuation, bind, hlast, pydiv_of_ne _ h2,
    sum_pv_range a.discount_rate h3, pydiv_of_ne _ hpow, pydiv_of_ne _ h4,
    pydiv_of_ne _ hsh, Option.some_bind]

lemma bind_fun_none {α β : Type} (x : Option α) :
    x.bind (fun _ => (none : Option β)) = none := by
  cases x <;> rfl

/-- When the two rates coincide, the terminal-value division raises and the
whole computation returns `None`. -/
lemma dcf_none_of_rate_eq (info : Info) (a : DCFAssumptions)
    (h : a.discount_rate = a.terminal_growth) :
    calculate_dcf_valuation info a = none := by
  have h0 : a.discount_rate - a.terminal_growth = 0 := by rw [h, sub_self]
  simp only [calculate_dcf_valuation, bind, h0, pydiv_zero, Option.none_bind, bind_fun_none]

/-- When `currentPrice` is present and zero, the shares-outstanding division
raises and the whole computation returns `None`. -/
lemma dcf_none_of_price_zero (info : Info) (a : DCFAssumptions)
    (h : info.currentPrice = some 0) :
    calculate_dcf_valuation info a = none := by
  simp only [calculate_dcf_valuation, bind, h, Option.getD_some, pydiv_zero,
    Option.none_bind, bind_fun_none]

lemma demo_walk_length (g : ℕ → ℚ) :
    ∀ (dates : List ℤ) (i : ℕ) (price : ℚ),
      (demo_walk g dates i price).1.length = dates.length := by
  intro dates
  induction dates with
  | nil => intro i price; rfl
  | cons d ds ih => intro i price; simp [demo_walk, ih]

lemma demo_walk_fst (g : ℕ → ℚ) :
    ∀ (dates : List ℤ) (i : ℕ) (price : ℚ),
      (demo_walk g dates i price).1.map Prod.fst = dates := by
  intro dates
  induction dates with
  | nil => intro i price; rfl
  | cons d ds ih => intro i price; simp [demo_walk, ih]

lemma prod_shift (c : ℕ → ℚ) (i k : ℕ) :
    ∏ j in Finset.range (k + 1), c (i + j) = c i * ∏ j in Finset.range k, c (i + 1 + j) := by
  rw [Finset.prod_range_succ']
  have hidx : ∀ j : ℕ, i + (j + 1) = i + 1 + j := by omega
  rw [Nat.add_zero, mul_comm]
  congr 1
  exact Finset.prod_congr rfl (fun j _ => by rw [hidx j])

lemma demo_walk_get? (g : ℕ → ℚ) :
    ∀ (dates : List ℤ) (i : ℕ) (price : ℚ) (k : ℕ),
      (demo_walk g dates i price).1.get? k =
        (dates.get? k).map (fun d =>
          (d, price * ∏ j in Finset.range (k + 1), (1 + uniform (-0.02) 0.02 (g (i + j))))) := by
  intro dates
  induction dates with
  | nil => intro i price k; rfl
  | cons d ds ih =>
    intro i price k
    cases k with
    | zero => simp [demo_walk]
    | succ k =>
      have hrw := ih (i + 1) (price * (1 + uniform (-0.02) 0.02 (g i))) k
      simp only [demo_walk, List.get?_cons_succ]
      rw [hrw]
      cases hds : ds.get? k with
      | none => rfl
      | some d' =>
        simp only [Option.map_some']
        rw [prod_shift (fun n => 1 + uniform (-0.02) 0.02 (g n)) i (k + 1), ← mul_assoc]

lemma demo_walk_snd (g : ℕ → ℚ) :
    ∀ (dates : List ℤ) (i : ℕ) (price : ℚ),
      (demo_walk g dates i price).2 =
        price * ∏ j in Finset.range dates.length, (1 + uniform (-0.02) 0.02 (g (i + j))) := by
  intro dates
  induction dates with
  | nil => intro i price; simp [demo_walk]
  | cons d ds ih =>
    intro i price
    simp only [demo_walk]
    rw [ih (i + 1) (price * (1 + uniform (-0.02) 0.02 (g i)))]
    rw [List.length_cons]
    rw [prod_shift (fun n => 1 + uniform (-0.02) 0.02 (g n)) i ds.length, ← mul_assoc]

lemma demo_walk_pos (g : ℕ → ℚ) (hg : ∀ n, 0 ≤ g n ∧ g n < 1) :
    ∀ (dates : List ℤ) (i : ℕ) (price : ℚ), 0 < price →
      ∀ p ∈ (demo_walk g dates i price).1, 0 < p.2 := by
  intro dates
  induction dates with
  | nil => intro i price hp p hmem; simp [demo_walk] at hmem
  | cons d ds ih =>
    intro i price hp p hmem
    have hstep : 0 < price * (1 + uniform (-0.02) 0.02 (g i)) := by
      have h1 := (hg i).1
      have h2 := (hg i).2
      have : 0 < 1 + uniform (-0.02) 0.02 (g i) := by
        unfold uniform
        nlinarith
      exact mul_pos hp this
    simp only [demo_walk, List.mem_cons] at hmem
    rcases hmem with rfl | hmem
    · exact hstep
    · exact ih (i + 1) _ hstep p hmem

lemma date_range_length {s e : ℤ} (h : s ≤ e) :
    (date_range s e).length = (e - s).toNat + 1 := by
  unfold date_range
  rw [if_pos h, List.length_map, List.length_range]

lemma date_range_get? {s e : ℤ} (h : s ≤ e) (k : ℕ) (hk : k < (e - s).toNat + 1) :
    (date_range s e).get? k = some (s + k) := by
  unfold date_range
  rw [if_pos h, List.get?_map, List.get?_range hk, Option.map_some']

/-- The `stock_data['history']` entry of the demo data is the price walk. -/
lemma sd_history_demo (t : String) (s e : ℤ) (g : ℕ → ℚ) :
    sd_history (generate_demo_data t s e g) =
      (demo_walk g (date_range s e) 1 (uniform 100 200 (g 0))).1 := rfl

/-- The `currentPrice` entry of the demo data is the final value
of the price walk. -/
lemma sd_info_demo_price (t : String) (s e : ℤ) (g : ℕ → ℚ) :
    (sd_info (generate_demo_data t s e g)).currentPrice =
      some ((demo_walk g (date_range s e) 1 (uniform 100 200 (g 0))).2) := rfl

/-! ### Claims -/

/-- Claim C1, counterexample.  On a snapshot in which both `freeCashflow`
and `totalRevenue` are absent, the base free cash flow used by the DCF
engine is `1e10 * 0.2 = 2e9`, not the claimed fixed fallback base `1e10`:
the constant `1e10` is the default substituted for the missing revenue, and
it still passes through the 20 % free-cash-flow-margin estimate. -/
theorem c1_base_fcf_counterexample :
    free_cash_flow_base {} = 2e9 ∧ (2e9 : ℚ) ≠ 1e10 := by
  constructor
  · unfold free_cash_flow_base
    norm_num
  · norm_num

/-- Claim C1, amended.  The fallback chain of the base free cash flow:
`snapshot.freeCashFlow` when present and positive; otherwise
`totalRevenue × 0.20`; and when `totalRevenue` is also absent, the default
revenue `1e10` is fed into the same estimate, so the base equals
`1e10 × 0.20 = 2e9`. -/
theorem c1_base_fcf_fallback_chain : ∀ info : Info,
    (∀ f : ℚ, info.freeCashflow = some f → 0 < f → free_cash_flow_base info = f) ∧
    (info.freeCashflow.getD 0 ≤ 0 → ∀ rev : ℚ, info.totalRevenue = some rev →
      free_cash_flow_base info = rev * 0.2) ∧
    (info.freeCashflow.getD 0 ≤ 0 → info.totalRevenue = none →
      free_cash_flow_base info = 2e9) := by
  intro info
  refine ⟨?_, ?_, ?_⟩
  · intro f hf hpos
    unfold free_cash_flow_base
    rw [hf]
    simp [not_le.mpr hpos]
  · intro hle rev hrev
    unfold free_cash_flow_base
    rw [if_pos hle, hrev]
    rfl
  · intro hle hnone
    unfold free_cash_flow_base
    rw [if_pos hle, hnone]
    norm_num

/-- Witness for C1: a snapshot with `freeCashflow` absent and
`totalRevenue = 50` gets base free cash flow `50 × 0.2 = 10`. -/
theorem c1_base_fcf_fallback_chain_witness :
    free_cash_flow_base { totalRevenue := some 50 } = 10 := by
  have h := (c1_base_fcf_fallback_chain { totalRevenue := some 50 }).2.1 (by norm_num) 50 rfl
  rw [h]
  norm_num

/-- Claim C2, counterexample.  At margin of safety exactly −10 the code
takes the `else` branch (`elif margin_of_safety > -10` is false), so the
recommendation is SELL, not the claimed HOLD: the lower HOLD boundary is
exclusive in the code. -/
theorem c2_classifier_counterexample :
    recommendation (-10) = Recommendation.sell ∧
      recommendation (-10) ≠ Recommendation.hold := by
  have h1 : recommendation (-10) = Recommendation.sell := by
    unfold recommendation
    norm_num
  refine ⟨h1, ?_⟩
  rw [h1]
  decide

/-- Claim C2, amended.  The classifier is a pure function of the margin of
safety with thresholds: m > 10 yields BUY, −10 < m ≤ 10 yields HOLD, and
m ≤ −10 yields SELL (the upper HOLD bound is inclusive, the lower one is
exclusive). -/
theorem c2_classifier_thresholds : ∀ m : ℚ,
    (10 < m → recommendation m = Recommendation.buy) ∧
    (-10 < m → m ≤ 10 → recommendation m = Recommendation.hold) ∧
    (m ≤ -10 → recommendation m = Recommendation.sell) := by
  intro m
  refine ⟨?_, ?_, ?_⟩
  · intro h
    unfold recommendation
    rw [if_pos h]
  · intro h1 h2
    unfold recommendation
    rw [if_neg (not_lt.mpr h2), if_pos h1]
  · intro h
    unfold recommendation
    rw [if_neg (not_lt.mpr (h.trans (by norm_num))), if_neg (not_lt.mpr h)]

/-- Witness for C2: the boundary values.  10.0 → HOLD, 10.0001 → BUY,
−10.0 → SELL, −10.0001 → SELL. -/
theorem c2_classifier_thresholds_witness :
    recommendation 10 = Recommendation.hold ∧
    recommendation 10.0001 = Recommendation.buy ∧
    recommendation (-10) = Recommendation.sell ∧
    recommendation (-10.0001) = Recommendation.sell :=
  ⟨(c2_classifier_thresholds 10).2.1 (by norm_num) le_rfl,
   (c2_classifier_thresholds 10.0001).1 (by norm_num),
   (c2_classifier_thresholds (-10)).2.2 le_rfl,
   (c2_classifier_thresholds (-10.0001)).2.2 (by norm_num)⟩

/-- Claim C3, counterexample.  With discountRate = 0 < terminalGrowth = 1
(hence discountRate ≤ terminalGrowth) and a positive base free cash flow,
the computation does NOT fail: it returns a DCFResult whose terminal value
is −200, a silently computed negative terminal value. -/
theorem c3_computation_failure_counterexample :
    (⟨0, 0, 1, 1⟩ : DCFAssumptions).discount_rate <
      (⟨0, 0, 1, 1⟩ : DCFAssumptions).terminal_growth ∧
    (calculate_dcf_valuation { freeCashflow := some 100 } ⟨0, 0, 1, 1⟩).map
      DCFResult.terminal_value = some (-200) := by
  constructor
  · norm_num
  · have hfcf : free_cash_flow_base { freeCashflow := some 100 } = 100 := by
      unfold free_cash_flow_base
      norm_num
    have hrun := dcf_run { freeCashflow := some 100 } ⟨0, 0, 1, 1⟩
      (by norm_num) (by norm_num) (by norm_num) (by norm_num) (by norm_num)
    rw [hrun]
    simp only [Option.map_some']
    rw [hfcf]
    norm_num

/-- Claim C3, amended.  The computation returns `None` (an unstructured
failure: the caught exception) when discountRate = terminalGrowth or when
currentPrice is present and zero; but when discountRate < terminalGrowth it
silently returns a result instead of failing, and when currentPrice and
marketCap are absent it substitutes 1 for both (shares outstanding = 1), so
the intrinsic value −100 below is the (negative) equity value itself. -/
theorem c3_computation_failure_modes :
    (∀ (info : Info) (a : DCFAssumptions), a.discount_rate = a.terminal_growth →
      calculate_dcf_valuation info a = none) ∧
    (∀ (info : Info) (a : DCFAssumptions), info.currentPrice = some 0 →
      calculate_dcf_valuation info a = none) ∧
    ((calculate_dcf_valuation { freeCashflow := some 100 } ⟨0, 0, 1, 1⟩).map
      DCFResult.intrinsic_value = some (-100)) := by
  refine ⟨dcf_none_of_rate_eq, dcf_none_of_price_zero, ?_⟩
  have hfcf : free_cash_flow_base { freeCashflow := some 100 } = 100 := by
    unfold free_cash_flow_base
    norm_num
  have hrun := dcf_run { freeCashflow := some 100 } ⟨0, 0, 1, 1⟩
    (by norm_num) (by norm_num) (by norm_num) (by norm_num) (by norm_num)
  rw [hrun]
  simp only [Option.map_some']
  rw [hfcf]
  norm_num

/-- Witness for C3: equal rates at a concrete input give `None`. -/
theorem c3_computation_failure_modes_witness :
    calculate_dcf_valuation {} ⟨0.05, 0.1, 0.1, 5⟩ = none :=
  c3_computation_failure_modes.1 {} ⟨0.05, 0.1, 0.1, 5⟩ rfl

/-- Claim C4 (code bug).  On a fetch failure the engine does substitute
synthetic data and returns success (it never propagates the failure), but
the returned `stock_data` carries NO `isSynthetic` marker: its keys are
exactly the six live-data keys, so the synthetic origin is signalled only
through the `st.warning` side channel, contradicting the spec's requirement
that the flag be part of the result. -/
theorem c4_synthetic_flag_missing :
    (get_stock_data none ("XYZ") 0 1 (fun _ => 0)).1 = true ∧
    ((get_stock_data none ("XYZ") 0 1 (fun _ => 0)).2.map Prod.fst =
      ["ticker", "info", "history", "financials", "balance_sheet", "cashflow"]) ∧
    "isSynthetic" ∉ (get_stock_data none ("XYZ") 0 1 (fun _ => 0)).2.map Prod.fst := by
  refine ⟨rfl, rfl, ?_⟩
  intro hmem
  simp only [get_stock_data, generate_demo_data] at hmem
  simp at hmem

/-- Claim C7.  The DCF engine reads no randomness: within one analysis run,
the DCF component of the result is the same whatever random stream the rest
of the pipeline consumes, so two invocations with identical snapshot and
assumptions yield identical DCFResults. -/
theorem c7_dcf_deterministic :
    ∀ (info : Info) (a : DCFAssumptions) (g g' : ℕ → ℚ),
      (analyze info a g).2 = (analyze info a g').2 :=
  fun _ _ _ _ => rfl

/-- Claim C5, counterexample.  The quantification over every snapshot fails:
with discountRate = 1 > terminalGrowth = 0 and forecastYears = 1, a snapshot
whose currentPrice is present and zero makes the shares-outstanding division
raise, so the computation returns `None` instead of a DCFResult. -/
theorem c5_dcf_shape_counterexample :
    (⟨0, 1, 0, 1⟩ : DCFAssumptions).terminal_growth <
      (⟨0, 1, 0, 1⟩ : DCFAssumptions).discount_rate ∧
    1 ≤ (⟨0, 1, 0, 1⟩ : DCFAssumptions).forecast_years ∧
    calculate_dcf_valuation { currentPrice := some 0, freeCashflow := some 100 }
      ⟨0, 1, 0, 1⟩ = none :=
  ⟨by norm_num, le_rfl,
   dcf_none_of_price_zero { currentPrice := some 0, freeCashflow := some 100 } ⟨0, 1, 0, 1⟩ rfl⟩

/-- Claim C5, amended.  For every snapshot whose currentPrice and marketCap
are nonzero when present, and assumptions with discountRate > terminalGrowth,
forecastYears ≥ 1 and discountRate ≠ −1, the computation returns a DCFResult
with: projectedFCFs of length forecastYears whose year-i entry is
baseFCF·(1+growthRate)^i (strictly positive when baseFCF > 0 and
growthRate ≥ 0), terminal value lastFCF·(1+terminalGrowth)/(discountRate −
terminalGrowth), each FCF_i discounted by (1+discountRate)^i and the
terminal value by (1+discountRate)^forecastYears, and enterprise value =
equity value = the sum of the two present values. -/
theorem c5_dcf_shape : ∀ (info : Info) (a : DCFAssumptions),
    a.terminal_growth < a.discount_rate → 1 ≤ a.forecast_years →
    1 + a.discount_rate ≠ 0 → info.currentPrice ≠ some 0 → info.marketCap ≠ some 0 →
    ∃ r : DCFResult, calculate_dcf_valuation info a = some r ∧
      r.future_fcfs.length = a.forecast_years ∧
      (∀ i : ℕ, i < a.forecast_years →
        r.future_fcfs.get? i =
          some (free_cash_flow_base info * (1 + a.growth_rate) ^ (i + 1))) ∧
      (0 < free_cash_flow_base info → 0 ≤ a.growth_rate →
        ∀ x ∈ r.future_fcfs, 0 < x) ∧
      r.terminal_value = free_cash_flow_base info * (1 + a.growth_rate) ^ a.forecast_years *
        (1 + a.terminal_growth) / (a.discount_rate - a.terminal_growth) ∧
      r.present_value_fcfs = ((List.range a.forecast_years).map
        (fun k => free_cash_flow_base info * (1 + a.growth_rate) ^ (k + 1) /
          (1 + a.discount_rate) ^ (k + 1))).sum ∧
      r.present_value_terminal = r.terminal_value / (1 + a.discount_rate) ^ a.forecast_years ∧
      r.enterprise_value = r.present_value_fcfs + r.present_value_terminal ∧
      r.equity_value = r.enterprise_value := by
  intro info a hlt hn h3 hp hm
  have h1 : a.forecast_years ≠ 0 := by omega
  have h2 : a.discount_rate - a.terminal_growth ≠ 0 := sub_ne_zero.mpr (ne_of_gt hlt)
  have h4 : info.currentPrice.getD 1 ≠ 0 := by
    cases hcp : info.currentPrice with
    | none => simp
    | some v =>
      simp only [Option.getD_some]
      intro hv
      exact hp (by rw [hcp, hv])
  have h5 : info.marketCap.getD 1 ≠ 0 := by
    cases hmc : info.marketCap with
    | none => simp
    | some v =>
      simp only [Option.getD_some]
      intro hv
      exact hm (by rw [hmc, hv])
  refine ⟨_, dcf_run info a h1 h2 h3 h4 h5, ?_, ?_, ?_, rfl, rfl, rfl, rfl, rfl⟩
  · simp
  · intro i hi
    rw [List.get?_map, List.get?_range hi, Option.map_some']
  · intro hbase hgrow x hx
    simp only [List.mem_map, List.mem_range] at hx
    obtain ⟨k, -, rfl⟩ := hx
    have hg1 : (0 : ℚ) < 1 + a.growth_rate := by linarith
    exact mul_pos hbase (pow_pos hg1 _)

/-- Witness for C5: at a snapshot with freeCashflow 100, currentPrice 1 and
marketCap 1, and assumptions (0, 1, 0, 1), the computation succeeds. -/
theorem c5_dcf_shape_witness :
    (calculate_dcf_valuation
      { currentPrice := some 1, marketCap := some 1, freeCashflow := some 100 }
      ⟨0, 1, 0, 1⟩).isSome = true := by
  obtain ⟨r, hr, -⟩ := c5_dcf_shape
    { currentPrice := some 1, marketCap := some 1, freeCashflow := some 100 }
    ⟨0, 1, 0, 1⟩ (by norm_num) le_rfl (by norm_num) (by simp) (by simp)
  rw [hr]
  rfl

/-- Claim C6.  In every returned DCFResult the margin of safety equals
(intrinsic − current)/intrinsic × 100 when the intrinsic value per share is
positive, and 0 otherwise. -/
theorem c6_margin_of_safety : ∀ (info : Info) (a : DCFAssumptions) (r : DCFResult),
    calculate_dcf_valuation info a = some r →
    r.margin_of_safety =
      if 0 < r.intrinsic_value then
        (r.intrinsic_value - r.current_price) / r.intrinsic_value * 100
      else 0 := by
  intro info a r h
  simp only [calculate_dcf_valuation, bind, Option.bind_eq_some] at h
  obtain ⟨l, -, tv, -, pv, -, pvt, -, sh, -, iv, -, hsome⟩ := h
  injection hsome with hrec
  subst hrec
  rfl

/-- Witness for C6: the end-to-end example evaluates to margin 99. -/
theorem c6_margin_of_safety_witness :
    (calculate_dcf_valuation
      { currentPrice := some 1, marketCap := some 1, freeCashflow := some 100 }
      ⟨0, 1, 0, 1⟩).map DCFResult.margin_of_safety = some 99 := by
  have hrun := dcf_run
    { currentPrice := some 1, marketCap := some 1, freeCashflow := some 100 }
    ⟨0, 1, 0, 1⟩ (by norm_num) (by norm_num) (by norm_num) (by simp) (by simp)
  have hmargin := c6_margin_of_safety _ _ _ hrun
  have hfcf : free_cash_flow_base
      { currentPrice := some 1, marketCap := some 1, freeCashflow := some 100 } = 100 := by
    unfold free_cash_flow_base
    norm_num
  have hr1 : List.range 1 = [0] := rfl
  rw [hrun, Option.map_some', hmargin]
  norm_num [hfcf, hr1, List.map_cons, List.map_nil, List.sum_cons, List.sum_nil]

/-- Claim C8, counterexample.  For the range start = 0, end = 1 the
generated history has a point at day 1 = end itself: `pd.date_range` is
inclusive of both endpoints, so the history covers the closed range
[start, end], not the claimed half-open [start, end) (which here would be
the single day 0). -/
theorem c8_price_history_counterexample :
    (sd_history (generate_demo_data ("T") 0 1 (fun _ => 0))).map Prod.fst = [0, 1] := by
  rw [sd_history_demo, demo_walk_fst]
  decide

/-- Claim C8, amended.  For every range with start < end and generator draws
in [0,1): the history has one point per calendar day in the CLOSED range
[start, end] ((end−start)+1 points, chronologically ascending); the base
price lies in [100, 200]; every per-day return lies in [−2%, 2%]; the k-th
close is the base price compounded by the first k+1 daily factors; and every
close price is strictly positive. -/
theorem c8_price_history : ∀ (t : String) (s e : ℤ) (g : ℕ → ℚ),
    s < e → (∀ n, 0 ≤ g n ∧ g n < 1) →
    ((sd_history (generate_demo_data t s e g)).map Prod.fst = date_range s e) ∧
    ((date_range s e).length = (e - s).toNat + 1) ∧
    (∀ k : ℕ, k < (e - s).toNat + 1 → (date_range s e).get? k = some (s + k)) ∧
    (100 ≤ uniform 100 200 (g 0) ∧ uniform 100 200 (g 0) ≤ 200) ∧
    (∀ k : ℕ, -0.02 ≤ uniform (-0.02) 0.02 (g k) ∧ uniform (-0.02) 0.02 (g k) ≤ 0.02) ∧
    (∀ k : ℕ, (sd_history (generate_demo_data t s e g)).get? k =
      ((date_range s e).get? k).map (fun d =>
        (d, uniform 100 200 (g 0) * ∏ j in Finset.range (k + 1),
          (1 + uniform (-0.02) 0.02 (g (1 + j)))))) ∧
    (∀ p ∈ sd_history (generate_demo_data t s e g), 0 < p.2) := by
  intro t s e g hse hg
  have hle : s ≤ e := le_of_lt hse
  refine ⟨?_, date_range_length hle, fun k hk => date_range_get? hle k hk, ?_, ?_, ?_, ?_⟩
  · rw [sd_history_demo]
    exact demo_walk_fst g _ _ _
  · have h0 := hg 0
    unfold uniform
    constructor <;> nlinarith [h0.1, h0.2]
  · intro k
    have hk := hg k
    unfold uniform
    constructor <;> nlinarith [hk.1, hk.2]
  · intro k
    rw [sd_history_demo, demo_walk_get? g (date_range s e) 1 (uniform 100 200 (g 0)) k]
  · rw [sd_history_demo]
    refine demo_walk_pos g hg _ _ _ ?_
    have h0 := hg 0
    unfold uniform
    nlinarith [h0.1, h0.2]

/-- Witness for C8: the concrete range 0..1 with the all-zero stream yields
a two-day ascending history. -/
theorem c8_price_history_witness :
    ((sd_history (generate_demo_data ("T") 0 1 (fun _ => 0))).map Prod.fst = date_range 0 1) ∧
    (date_range 0 1).length = 2 := by
  have h := c8_price_history ("T") 0 1 (fun _ => 0) (by decide)
    (fun n => ⟨le_rfl, by norm_num⟩)
  refine ⟨h.1, ?_⟩
  rw [h.2.1]
  decide

/-- Claim C9.  The ratio mapping has exactly the twelve fixed keys in
insertion order; every snapshot field is carried through unchanged (absent
fields stay absent, no failure); and revenue growth is an independent random
estimate in [5%, 15%]. -/
theorem c9_ratio_keys : ∀ (info : Info) (r : ℚ), 0 ≤ r → r < 1 →
    ((calculate_valuation_ratios info r).map Prod.fst =
      ["pe_ratio", "forward_pe", "price_to_sales", "price_to_book", "eps", "forward_eps",
       "profit_margin", "revenue_growth", "market_cap", "beta", "current_price",
       "dividend_yield"]) ∧
    ((calculate_valuation_ratios info r).lookup ("pe_ratio") = some info.trailingPE) ∧
    ((calculate_valuation_ratios info r).lookup ("forward_pe") = some info.forwardPE) ∧
    ((calculate_valuation_ratios info r).lookup ("price_to_sales") =
      some info.priceToSalesTrailing12Months) ∧
    ((calculate_valuation_ratios info r).lookup ("price_to_book") = some info.priceToBook) ∧
    ((calculate_valuation_ratios info r).lookup ("eps") = some info.trailingEps) ∧
    ((calculate_valuation_ratios info r).lookup ("forward_eps") = some info.forwardEps) ∧
    ((calculate_valuation_ratios info r).lookup ("profit_margin") = some info.profitMargins) ∧
    ((calculate_valuation_ratios info r).lookup ("market_cap") = some info.marketCap) ∧
    ((calculate_valuation_ratios info r).lookup ("beta") = some info.beta) ∧
    ((calculate_valuation_ratios info r).lookup ("current_price") = some info.currentPrice) ∧
    ((calculate_valuation_ratios info r).lookup ("dividend_yield") = some info.dividendYield) ∧
    ((calculate_valuation_ratios info r).lookup ("revenue_growth") =
      some (some (uniform 0.05 0.15 r))) ∧
    (0.05 ≤ uniform 0.05 0.15 r ∧ uniform 0.05 0.15 r ≤ 0.15) := by
  intro info r h0 h1
  refine ⟨rfl, rfl, rfl, rfl, rfl, rfl, rfl, rfl, rfl, rfl, rfl, rfl, rfl, ?_⟩
  unfold uniform
  constructor <;> nlinarith

/-- Witness for C9: the empty snapshot with draw 0. -/
theorem c9_ratio_keys_witness :
    (calculate_valuation_ratios {} 0).map Prod.fst =
      ["pe_ratio", "forward_pe", "price_to_sales", "price_to_book", "eps", "forward_eps",
       "profit_margin", "revenue_growth", "market_cap", "beta", "current_price",
       "dividend_yield"] :=
  (c9_ratio_keys {} 0 le_rfl (by norm_num)).1

/-- Claim C10.  In every generated demo dataset over a nonempty date range,
the snapshot's currentPrice is exactly the close price of the last point of
the generated price history. -/
theorem c10_current_price_last_close : ∀ (t : String) (s e : ℤ) (g : ℕ → ℚ), s ≤ e →
    (sd_info (generate_demo_data t s e g)).currentPrice =
      ((sd_history (generate_demo_data t s e g)).map Prod.snd).getLast? := by
  intro t s e g h
  rw [sd_info_demo_price, sd_history_demo]
  rw [List.getLast?_eq_get?]
  rw [List.length_map, demo_walk_length, date_range_length h]
  simp only [Nat.add_sub_cancel]
  rw [List.get?_map]
  rw [demo_walk_get?]
  rw [date_range_get? h ((e - s).toNat) (by omega)]
  rw [demo_walk_snd, date_range_length h]
  simp only [Option.map_some']

/-- Witness for C10: the concrete range 0..1 with the all-zero stream. -/
theorem c10_current_price_last_close_witness :
    (sd_info (generate_demo_data ("T") 0 1 (fun _ => 0))).currentPrice =
      ((sd_history (generate_demo_data ("T") 0 1 (fun _ => 0))).map Prod.snd).getLast? :=
  c10_current_price_last_close ("T") 0 1 (fun _ => 0) (by decide)

end StockDashboard
